import Mathlib

/-!
Verification development for the Droidspaces container runtime core.

Shallow embedding of the C sources under `src/`:
- `environment.c` — environment sealer (`setup_container_env`, `load_etc_environment`)
- `network.c` / `android.c` — identity writer and Android DNS discovery
- `mount.c` — `/dev` device roster (`create_devices`)
- `android_seccomp.c` — seccomp BPF filter (`android_seccomp_setup`)
- `hardware.c` — GPU group reconciliation (`setup_gpu_groups`, `has_user`)

Strings are modelled as Lean `String`s / `List Char`; files as lists of
newline-stripped lines; the process environment as an association list with
POSIX `setenv`/`getenv` semantics.  Machine integers are modelled as `Int`
(C `int`) and `Nat` with explicit `% 2^32` where `gid_t` casts matter.
-/

namespace Droidspaces

/-! ## C library helpers -/

/-- Model of the process environment: `environ` as an ordered association
list; lookup takes the first binding. -/
abbrev Env := List (String × String)

/-- `getenv(3)`: first binding of the key, if any. -/
def getenvM (env : Env) (k : String) : Option String :=
  (env.find? (fun p => p.1 = k)).map (·.2)

/-- `setenv(k, v, 1)`: overwrite the existing binding, else append. -/
def setenvM (env : Env) (k v : String) : Env :=
  if env.any (fun p => p.1 = k) then
    env.map (fun p => if p.1 = k then (k, v) else p)
  else
    env ++ [(k, v)]

/-- Modelled from the spec: `safe_strncpy` (utility not under `src/`) is the
usual bounded copy into a buffer of the given size — it keeps at most
`size - 1` characters of the source and NUL-terminates. -/
def safeStrncpyStr (src : String) (size : Nat) : String :=
  ⟨src.data.take (size - 1)⟩

/-! ## environment.c -/

/-- `set_container_defaults(term)` from `environment.c`. -/
def set_container_defaults (term : String) (env : Env) : Env :=
  setenvM (setenvM (setenvM (setenvM env
    "PATH" "/usr/local/sbin:/usr/local/bin:/usr/sbin:/usr/bin:/sbin:/bin")
    "TERM" term)
    "HOME" "/root")
    "container" "droidspaces"

/-- `setup_container_env()` from `environment.c`: capture `TERM` into a
64-byte buffer initialised to `"xterm-256color"`, `clearenv()`, then set the
defaults. -/
def setup_container_env (env : Env) : Env :=
  let term_buf : String :=
    match getenvM env "TERM" with
    | some saved_term => safeStrncpyStr saved_term 64
    | none => "xterm-256color"
  set_container_defaults term_buf []

/-- One iteration of the `fgets` loop body of `load_etc_environment`:
the line is already newline-stripped; skip comments and empty lines,
split at the first `=`, strip matching outer quotes, `setenv`. -/
def loadEnvLine (env : Env) (line : String) : Env :=
  if line = "" ∨ line.startsWith "#" then env
  else
    match line.data.findIdx? (· = '=') with
    | none => env
    | some i =>
      let key : String := ⟨line.data.take i⟩
      let val : List Char := line.data.drop (i + 1)
      let val' : List Char :=
        if val.length ≥ 2 ∧
            ((val.head? = some '"' ∧ val.getLast? = some '"') ∨
             (val.head? = some '\'' ∧ val.getLast? = some '\'')) then
          (val.drop 1).dropLast
        else val
      setenvM env key ⟨val'⟩

/-- `load_etc_environment()` from `environment.c`.  The `fopen` result is
modelled as `Option (List String)`: `none` when `/etc/environment` cannot be
opened (the function returns at once), `some lines` otherwise. -/
def load_etc_environment (file : Option (List String)) (env : Env) : Env :=
  match file with
  | none => env
  | some lines => lines.foldl loadEnvLine env

/-! ## mount.c — `create_devices` -/

/-- One row of the device roster in `create_devices` (`mount.c`):
name, whether the mode is `S_IFREG` (regular-file placeholder) as opposed to
`S_IFCHR`, and the `makedev` major/minor. -/
structure DevEntry where
  name : String
  isChr : Bool
  major : Nat
  minor : Nat
deriving DecidableEq, Repr

/-- The literal device table of `create_devices` in `mount.c`. -/
def createDevicesRoster : List DevEntry :=
  [⟨"null", true, 1, 3⟩,
   ⟨"zero", true, 1, 5⟩,
   ⟨"full", true, 1, 7⟩,
   ⟨"random", true, 1, 8⟩,
   ⟨"urandom", true, 1, 9⟩,
   ⟨"tty", true, 5, 0⟩,
   ⟨"console", true, 5, 1⟩,
   ⟨"ptmx", true, 5, 2⟩,
   ⟨"tty1", false, 0, 0⟩,
   ⟨"tty2", false, 0, 0⟩,
   ⟨"tty3", false, 0, 0⟩,
   ⟨"tty4", false, 0, 0⟩]

/-- The regular-file placeholders `create_devices` creates (the `S_IFREG`
rows of its roster).  `create_devices` receives only the rootfs path: no
`tty_count` flows into it. -/
def createDevicesRegFiles : List String :=
  (createDevicesRoster.filter (fun e => !e.isChr)).map (·.name)

/-- The placeholder list the spec sentence describes:
`tty1 .. tty{tty_count}`. -/
def specTtyPlaceholders (tty_count : Nat) : List String :=
  (List.range tty_count).map (fun i => "tty" ++ Nat.repr (i + 1))

/-! ## android.c — DNS property discovery -/

/-- The flat property array of `android_fill_dns_from_props`
(`android.c`), scanned with stride 2. -/
def dnsProps : List String :=
  ["net.dns1", "net.dns2", "net.eth0.dns1", "net.eth0.dns2",
   "net.wlan0.dns1", "net.wlan0.dns2"]

/-- The property store: `getprop <name>` output after newline-stripping
(`""` = property absent or empty). -/
abbrev PropStore := String → String

/-- The scanning loop of `android_fill_dns_from_props`: while properties
remain and `dns1` is empty, read the pair's first property into `dns1`; when
that made `dns1` non-empty and a second property exists, read it into
`dns2`; advance by two. -/
def fillDnsLoop (store : PropStore) : List String → String × String → String × String
  | [], st => st
  | [p1], (dns1, dns2) =>
    if dns1 = "" then (store p1, dns2) else (dns1, dns2)
  | p1 :: p2 :: rest, (dns1, dns2) =>
    if dns1 = "" then
      let dns1' := store p1
      let dns2' := if dns1' ≠ "" then store p2 else dns2
      fillDnsLoop store rest (dns1', dns2')
    else (dns1, dns2)

/-- `android_fill_dns_from_props` (`android.c`): clears both buffers, runs
the scan, returns the buffers and `0`/`-1` as `dns1` is non-empty/empty.
(`is_android()` is checked by the caller before invoking it.) -/
def android_fill_dns_from_props (store : PropStore) : String × String × Int :=
  let (d1, d2) := fillDnsLoop store dnsProps ("", "")
  (d1, d2, if d1 ≠ "" then 0 else -1)

/-! ## network.c — `fix_networking_rootfs` (identity writer) -/

/-- The guest-visible effects of steps 1–3 of `fix_networking_rootfs`
(`network.c`): whether `sethostname` was called, the `/etc/hostname`
content (if written), the `/etc/hosts` content, and the
`/etc/resolv.conf` content. -/
structure NetIdentity where
  sethostnameCalled : Bool
  etcHostname : Option String
  etcHosts : String
  etcResolvConf : String
deriving Repr, DecidableEq

/-- The resolv.conf assembly of `fix_networking_rootfs`: defaults
`8.8.8.8`/`8.8.4.4`, replaced by the Android property scan when on Android;
one `nameserver` line, or two when `dns2` is non-empty. -/
def resolvConfContent (isAndroid : Bool) (store : PropStore) : String :=
  let dns1 := "8.8.8.8"
  let dns2 := "8.8.4.4"
  let (dns1, dns2) :=
    if isAndroid then
      let r := android_fill_dns_from_props store
      (r.1, r.2.1)
    else (dns1, dns2)
  if dns2 ≠ "" then
    "nameserver " ++ dns1 ++ "\nnameserver " ++ dns2 ++ "\n"
  else
    "nameserver " ++ dns1 ++ "\n"

/-- Steps 1–3 of `fix_networking_rootfs` (`network.c`). -/
def fix_networking_rootfs (hostname : String) (isAndroid : Bool)
    (store : PropStore) : NetIdentity :=
  { sethostnameCalled := hostname ≠ ""
    etcHostname := if hostname ≠ "" then some (hostname ++ "\n") else none
    etcHosts :=
      "127.0.0.1\tlocalhost\n" ++
      "::1\t\tlocalhost ip6-localhost ip6-loopback\n" ++
      "127.0.1.1\t" ++ hostname ++ "\n"
    etcResolvConf := resolvConfContent isAndroid store }

/-- Split a character list into newline-separated lines. -/
def splitLinesCh : List Char → List (List Char)
  | [] => [[]]
  | c :: cs =>
    if c = '\n' then [] :: splitLinesCh cs
    else
      match splitLinesCh cs with
      | [] => [[c]]
      | h :: t => (c :: h) :: t

/-- A file content "omits the 127.0.1.1 line" when no newline-separated
line of it starts with `127.0.1.1`. -/
def omits127011 (content : String) : Bool :=
  (splitLinesCh content.data).all (fun l => !(List.isPrefixOf "127.0.1.1".data l))

/-! ## android_seccomp.c — the seccomp BPF filter -/

/-- The `seccomp_data` fields the filter loads. -/
inductive BpfField where
  | arch
  | nr
  | arg0
deriving DecidableEq, Repr

/-- A classic-BPF instruction as used by the filter: `BPF_STMT(LD|W|ABS, off)`
(restricted to the three `seccomp_data` offsets used), conditional jumps
`BPF_JUMP(JMP|JEQ/JSET|K, k, jt, jf)`, the unconditional `BPF_JUMP(JMP|JA, k)`,
and `BPF_STMT(RET|K, v)`. -/
inductive BpfInstr where
  | ld (f : BpfField)
  | jeq (k : Nat) (jt jf : Nat)
  | jset (k : Nat) (jt jf : Nat)
  | ja (k : Nat)
  | ret (v : Nat)
deriving DecidableEq, Repr

/-- The inspected syscall: architecture token, syscall number, first
argument (low 32 bits, as the filter loads `args[0]` with a W load). -/
structure SeccompData where
  arch : Nat
  nr : Nat
  arg0 : Nat
deriving DecidableEq, Repr

def loadField (d : SeccompData) : BpfField → Nat
  | .arch => d.arch
  | .nr => d.nr
  | .arg0 => d.arg0

/-- Classic-BPF execution over the remaining program: a conditional jump
with offset `o` skips the next `o` instructions; falling off the end yields
`none` (the kernel rejects such programs; ours always returns). -/
def bpfExec (d : SeccompData) : List BpfInstr → Nat → Option Nat
  | [], _ => none
  | .ld f :: rest, _ => bpfExec d rest (loadField d f)
  | .ret v :: _, _ => some v
  | .ja k :: rest, acc => bpfExec d (rest.drop k) acc
  | .jeq k jt jf :: rest, acc =>
    bpfExec d (rest.drop (if acc = k then jt else jf)) acc
  | .jset k jt jf :: rest, acc =>
    bpfExec d (rest.drop (if acc &&& k ≠ 0 then jt else jf)) acc
termination_by l _ => l.length
decreasing_by
  all_goals simp [List.length_drop]
  all_goals omega

/-- `SECCOMP_RET_ALLOW`. -/
def RET_ALLOW : Nat := 0x7fff0000
/-- `SECCOMP_RET_TRAP`. -/
def RET_TRAP : Nat := 0x00030000
/-- `SECCOMP_RET_ERRNO | (e & SECCOMP_RET_DATA)`. -/
def RET_ERRNO (e : Nat) : Nat := 0x00050000 ||| (e &&& 0xffff)
/-- Generic Linux `ENOSYS`. -/
def ENOSYS : Nat := 38
/-- Generic Linux `EPERM`. -/
def EPERM : Nat := 1
/-- The namespace-creation flag mask filtered on legacy kernels. -/
def nsMask : Nat := 0x7E020000
/-- `CLONE_NEWNS`. -/
def CLONE_NEWNS : Nat := 0x00020000

/-- The literal filter program of `android_seccomp_setup`
(`android_seccomp.c`), parameterised by the compile-time architecture token
and the architecture's syscall numbers. -/
def androidSeccompFilter (archK nrReboot nrKeyctl nrAddKey nrRequestKey
    nrUnshare nrClone : Nat) (is_systemd : Bool) (major : Int) :
    List BpfInstr :=
  [ .ld .arch,
    .jeq archK 1 0,
    .ret RET_ALLOW,
    .ld .nr,
    .jeq nrReboot 0 1,
    .ret RET_TRAP,
    .jeq nrKeyctl 0 1,
    .ret (RET_ERRNO ENOSYS),
    .jeq nrAddKey 0 1,
    .ret (RET_ERRNO ENOSYS),
    .jeq nrRequestKey 0 1,
    .ret (RET_ERRNO ENOSYS),
    .ja (if is_systemd = true ∧ major < 5 then 0 else 5),
    .jeq nrUnshare 1 0,
    .jeq nrClone 0 3,
    .ld .arg0,
    .jset nsMask 0 1,
    .ret (RET_ERRNO EPERM),
    .ret RET_ALLOW ]

/-- Running the installed filter on one syscall (accumulator starts at 0). -/
def runSeccompFilter (archK nrReboot nrKeyctl nrAddKey nrRequestKey
    nrUnshare nrClone : Nat) (is_systemd : Bool) (major : Int)
    (d : SeccompData) : Option Nat :=
  bpfExec d (androidSeccompFilter archK nrReboot nrKeyctl nrAddKey
    nrRequestKey nrUnshare nrClone is_systemd major) 0

/-- Modelled from the spec: `get_kernel_version` is not under `src/` (only
its caller in `android_seccomp.c` is).  The spec (§4.1) says the kernel
version is parsed from the release string and "on parse failure, treated as
'modern' (≥5.0)".  The parse outcome is the `Option` argument; failure
yields the modern version `(5, 0)`. -/
def get_kernel_version (parsed : Option (Int × Int)) : Int × Int :=
  match parsed with
  | some mm => mm
  | none => (5, 0)

/-- `android_seccomp_setup` (`android_seccomp.c`): obtain the kernel
version, then build the filter program with it. -/
def android_seccomp_setup (archK nrReboot nrKeyctl nrAddKey nrRequestKey
    nrUnshare nrClone : Nat) (is_systemd : Bool)
    (parsed : Option (Int × Int)) : List BpfInstr :=
  let mm := get_kernel_version parsed
  androidSeccompFilter archK nrReboot nrKeyctl nrAddKey nrRequestKey
    nrUnshare nrClone is_systemd mm.1

/-! ## hardware.c — `setup_gpu_groups` and `has_user`

The group file is modelled as a list of newline-stripped lines (each line of
the real file ends in `\n` and is shorter than the 2048-byte `fgets`
buffer); `setup_gpu_groups` writes the transformed lines plus appended
records to the temporary file and renames it over `/etc/group` iff
`modified_count > 0`. -/

/-- `isspace(3)` for the C locale, as consumed by `atoi`. -/
def isCSpace (c : Char) : Bool :=
  c = ' ' ∨ c = '\t' ∨ c = '\n' ∨ c = '\x0b' ∨ c = '\x0c' ∨ c = '\r'

/-- The digit-consuming loop of `atoi`: accumulate decimal digits, stop at
the first non-digit. -/
def atoiDigits : List Char → Nat → Nat
  | [], acc => acc
  | c :: cs, acc =>
    if c.isDigit then atoiDigits cs (acc * 10 + (c.toNat - 48)) else acc

/-- `atoi(3)`: skip leading whitespace, optional sign, then decimal digits
(0 if none).  Overflow does not arise for group IDs. -/
def atoi (s : List Char) : Int :=
  match s.dropWhile isCSpace with
  | '-' :: rest => -(atoiDigits rest 0 : Int)
  | '+' :: rest => (atoiDigits rest 0 : Int)
  | rest => (atoiDigits rest 0 : Int)

/-- The cast `(gid_t)gid_val` of the C source: `int` to unsigned 32-bit. -/
def gidOfInt (i : Int) : Nat := (i % 4294967296).toNat

/-- The cast `(int)g` applied to a `gid_t` by the `fprintf` calls. -/
def intOfGid (g : Nat) : Int :=
  if g < 2147483648 then (g : Int) else (g : Int) - 4294967296

/-- The character for a decimal digit (`d < 10`). -/
def digitChar10 (d : Nat) : Char :=
  match d with
  | 0 => '0' | 1 => '1' | 2 => '2' | 3 => '3' | 4 => '4'
  | 5 => '5' | 6 => '6' | 7 => '7' | 8 => '8' | _ => '9'

/-- Decimal digits of a natural number, least significant first. -/
def natDigitsRev (n : Nat) : List Char :=
  if _h : n < 10 then [digitChar10 n]
  else digitChar10 (n % 10) :: natDigitsRev (n / 10)
decreasing_by
  exact Nat.div_lt_self (by omega) (by omega)

/-- `%d` rendering of a natural number. -/
def natRepr10 (n : Nat) : List Char := (natDigitsRev n).reverse

/-- `%d` rendering of a C `int`. -/
def intRepr10 (i : Int) : List Char :=
  if i < 0 then '-' :: natRepr10 i.natAbs else natRepr10 i.toNat

/-- Split a character list at its first occurrence of `c`:
`some (before, after)` with `l = before ++ c :: after`, or `none` when `c`
does not occur.  This is the colon-counting scan of `setup_gpu_groups`. -/
def splitFirst (c : Char) : List Char → Option (List Char × List Char)
  | [] => none
  | x :: xs =>
    if x = c then some ([], xs)
    else
      match splitFirst c xs with
      | none => none
      | some (a, b) => some (x :: a, b)

/-- The per-line parse of `setup_gpu_groups`: scan for colons; the second
colon starts the GID field, the third ends it and starts the user list.
Returns `(prefix before the third colon, GID field, user list)`; `none`
when the line has fewer than three colons (then `gid_str`/`users_ptr` stay
`NULL` and the line is passed through). -/
def parseGroupLine (l : List Char) : Option (List Char × List Char × List Char) :=
  match splitFirst ':' l with
  | none => none
  | some (f1, r1) =>
    match splitFirst ':' r1 with
    | none => none
    | some (f2, r2) =>
      match splitFirst ':' r2 with
      | none => none
      | some (f3, users) => some (f1 ++ ':' :: f2 ++ ':' :: f3, f3, users)

/-- `has_user(users, username)` (`hardware.c`): scan every `strstr`
occurrence of `username`; report membership when some occurrence starts at
the beginning or right after a comma, and ends at a comma or at the end of
the string. -/
def hasUser (users username : List Char) : Bool :=
  (List.range (users.length + 1)).any (fun i =>
    decide (username <+: users.drop i) &&
    (decide (i = 0) || decide ((users.drop (i - 1)).head? = some ',')) &&
    (match (users.drop i).drop username.length with
     | [] => true
     | c :: _ => decide (c = ',')))

/-- `"root"` as a character list. -/
def rootUser : List Char := ['r', 'o', 'o', 't']

/-- The rewritten line emitted when `root` is added to a matching group
line: `fprintf(fout, "%.*s:%s,root\n", …)` prints the prefix before the
third colon, the colon, the user list, and `,root` — or `:root` when the
user list is empty. -/
def rewriteLine (pre users : List Char) : List Char :=
  if users.length > 0 then pre ++ ':' :: users ++ ',' :: rootUser
  else pre ++ ':' :: rootUser

/-- The record appended for a probed GID not found in the file:
`fprintf(fout, "gpu_%d:x:%d:root\n", (int)g, (int)g)`. -/
def gpuRecord (g : Nat) : List Char :=
  ('g' :: 'p' :: 'u' :: '_' :: intRepr10 (intOfGid g)) ++
    ':' :: 'x' :: ':' :: intRepr10 (intOfGid g) ++ ':' :: rootUser

/-- Loop state of `setup_gpu_groups`: the `found_gids` array, the lines
written to the temporary file so far, and `modified_count`. -/
structure GroupScanState where
  found : List Bool
  out : List (List Char)
  modified : Nat
deriving Repr, DecidableEq

/-- One iteration of the `fgets` loop of `setup_gpu_groups`: parse the
line; when the GID field's `atoi` value matches some probed GID (first
index wins), mark it found, and when `root` is not yet a member rewrite the
line, else (and in every other case) emit the original line. -/
def groupScanStep (gpu_gids : List Nat) (st : GroupScanState)
    (l : List Char) : GroupScanState :=
  match parseGroupLine l with
  | none => { st with out := st.out ++ [l] }
  | some (pre, gidf, users) =>
    match gpu_gids.findIdx? (fun g => g = gidOfInt (atoi gidf)) with
    | none => { st with out := st.out ++ [l] }
    | some i =>
      if hasUser users rootUser then
        { st with found := st.found.set i true, out := st.out ++ [l] }
      else
        { found := st.found.set i true
          out := st.out ++ [rewriteLine pre users]
          modified := st.modified + 1 }

/-- The append loop of `setup_gpu_groups`: one `gpu_<g>:x:<g>:root` record
per probed GID whose `found_gids` slot is still clear. -/
def missingRecords (gpu_gids : List Nat) (found : List Bool) :
    List (List Char) :=
  (gpu_gids.zip found).filterMap
    (fun gf => if gf.2 then none else some (gpuRecord gf.1))

/-- Result of `setup_gpu_groups`: the final content of `/etc/group`
(as lines), `modified_count`, and whether the temporary file was renamed
over `/etc/group`. -/
structure GroupResult where
  lines : List (List Char)
  modified : Nat
  renamed : Bool
deriving Repr, DecidableEq

/-- `setup_gpu_groups(gpu_gids, …)` (`hardware.c`) on a readable
`/etc/group` with the given lines: scan and transform each line, append
records for unfound GIDs, rename the temporary file iff
`modified_count > 0` (else the original file stays). -/
def setup_gpu_groups (gpu_gids : List Nat) (lines : List (List Char)) :
    GroupResult :=
  let st0 : GroupScanState :=
    { found := List.replicate gpu_gids.length false, out := [], modified := 0 }
  let st := lines.foldl (groupScanStep gpu_gids) st0
  let out2 := st.out ++ missingRecords gpu_gids st.found
  let m2 := st.modified + (missingRecords gpu_gids st.found).length
  if m2 > 0 then
    { lines := out2, modified := m2, renamed := true }
  else
    { lines := lines, modified := 0, renamed := false }

/-- aarch64 syscall numbers and audit-arch token, for concrete witnesses. -/
def AUDIT_ARCH_AARCH64 : Nat := 0xC00000B7
def NR_reboot_a64 : Nat := 142
def NR_keyctl_a64 : Nat := 219
def NR_add_key_a64 : Nat := 217
def NR_request_key_a64 : Nat := 218
def NR_unshare_a64 : Nat := 97
def NR_clone_a64 : Nat := 220

/-! ## Derived views of the `setup_gpu_groups` loop (proof helpers) -/

/-- The line `groupScanStep` emits for an input line (it depends only on
the line and the probed GIDs, not on the `found_gids` state). -/
def transformLine (gpu_gids : List Nat) (l : List Char) : List Char :=
  match parseGroupLine l with
  | none => l
  | some (pre, gidf, users) =>
    match gpu_gids.findIdx? (fun g => g = gidOfInt (atoi gidf)) with
    | none => l
    | some _ => if hasUser users rootUser then l else rewriteLine pre users

/-- The `found_gids` update `groupScanStep` performs for an input line. -/
def markLine (gpu_gids : List Nat) (found : List Bool) (l : List Char) :
    List Bool :=
  match parseGroupLine l with
  | none => found
  | some (_, gidf, _) =>
    match gpu_gids.findIdx? (fun g => g = gidOfInt (atoi gidf)) with
    | none => found
    | some i => found.set i true

/-- Whether `groupScanStep` rewrites a line (counting it in
`modified_count`). -/
def lineRewrittenB (gpu_gids : List Nat) (l : List Char) : Bool :=
  match parseGroupLine l with
  | none => false
  | some (_, gidf, users) =>
    (gpu_gids.findIdx? (fun g => g = gidOfInt (atoi gidf))).isSome &&
      !hasUser users rootUser

/-- Whether scanning a line sets `found_gids[i]`. -/
def lineMarksB (gpu_gids : List Nat) (i : Nat) (l : List Char) : Bool :=
  match parseGroupLine l with
  | none => false
  | some (_, gidf, _) =>
    decide (gpu_gids.findIdx? (fun g => g = gidOfInt (atoi gidf)) = some i)

/-- The `found_gids` array after the scan loop of `setup_gpu_groups`. -/
def scanFound (gpu_gids : List Nat) (lines : List (List Char)) : List Bool :=
  lines.foldl (markLine gpu_gids) (List.replicate gpu_gids.length false)

/-- The lines written to the temporary file by `setup_gpu_groups`. -/
def scanOut (gpu_gids : List Nat) (lines : List (List Char)) :
    List (List Char) :=
  lines.map (transformLine gpu_gids) ++
    missingRecords gpu_gids (scanFound gpu_gids lines)

/-- The final `modified_count` of `setup_gpu_groups`. -/
def scanModified (gpu_gids : List Nat) (lines : List (List Char)) : Nat :=
  lines.countP (lineRewrittenB gpu_gids) +
    (missingRecords gpu_gids (scanFound gpu_gids lines)).length

/-- Whether a line parses as a group record whose GID field's `atoi` value,
cast to `gid_t`, equals `g` (the matching test of `setup_gpu_groups`). -/
def lineHasGid (g : Nat) (l : List Char) : Bool :=
  match parseGroupLine l with
  | none => false
  | some (_, gidf, _) => decide (gidOfInt (atoi gidf) = g)

/-- The `TERM` value `setup_container_env` captures before `clearenv()`. -/
def capturedTerm (env : Env) : String :=
  match getenvM env "TERM" with
  | some saved_term => safeStrncpyStr saved_term 64
  | none => "xterm-256color"

/-! ## General lemmas -/

theorem safeStrncpy_idem (s : String) :
    safeStrncpyStr (safeStrncpyStr s 64) 64 = safeStrncpyStr s 64 := by
  simp [safeStrncpyStr, List.take_take]

theorem set_container_defaults_nil (t : String) :
    set_container_defaults t [] =
      [("PATH", "/usr/local/sbin:/usr/local/bin:/usr/sbin:/usr/bin:/sbin:/bin"),
       ("TERM", t), ("HOME", "/root"), ("container", "droidspaces")] := by
  simp [set_container_defaults, setenvM]

theorem capturedTerm_idem (env : Env) :
    safeStrncpyStr (capturedTerm env) 64 = capturedTerm env := by
  unfold capturedTerm
  cases getenvM env "TERM" with
  | none => decide
  | some t => exact safeStrncpy_idem t

theorem capturedTerm_defaults (env : Env) :
    capturedTerm (set_container_defaults (capturedTerm env) []) =
      capturedTerm env := by
  rw [set_container_defaults_nil]
  unfold capturedTerm getenvM
  simp [List.find?]
  exact capturedTerm_idem env

/-! ## Claim theorems: environment sealer -/

/-- C8: the Environment Sealer's scrub-and-default mode is idempotent — a
second application of `setup_container_env` reproduces the first's
environment, which consists of exactly `PATH` (the fixed default), `TERM`
(the captured value, `xterm-256color` when unset), `HOME=/root` and
`container=droidspaces`. -/
theorem env_sealer_scrub_default_idempotent (env : Env) :
    setup_container_env (setup_container_env env) = setup_container_env env ∧
    setup_container_env env =
      [("PATH", "/usr/local/sbin:/usr/local/bin:/usr/sbin:/usr/bin:/sbin:/bin"),
       ("TERM", capturedTerm env), ("HOME", "/root"),
       ("container", "droidspaces")] := by
  have h1 : ∀ e, setup_container_env e = set_container_defaults (capturedTerm e) [] := by
    intro e; rfl
  constructor
  · rw [h1, h1, capturedTerm_defaults]
  · rw [h1, set_container_defaults_nil]

/-- C10: when the guest's `/etc/environment` cannot be opened (`fopen`
returns `NULL`), `load_etc_environment` returns at once and the process
environment is unchanged. -/
theorem load_etc_environment_unopenable (env : Env) :
    load_etc_environment none env = env := rfl

/-! ## Claim theorems: mount builder device roster -/

/-- C7 counterexample: with `tty_count = 2` the Mount Builder does not
create the placeholder files `tty1..tty2` (and no others): `create_devices`
always creates exactly `tty1..tty4`. -/
theorem tty_placeholders_claim_false :
    ¬ (createDevicesRegFiles = specTtyPlaceholders 2) := by decide

/-- C7 (amended): when the Mount Builder populates a tmpfs `/dev`,
`create_devices` creates the placeholder regular files `tty1..tty4` — a
fixed roster independent of `tty_count` (spec §9 Q2). -/
theorem tty_placeholders_fixed :
    createDevicesRegFiles = ["tty1", "tty2", "tty3", "tty4"] := by decide

/-! ## Claim theorems: identity writer -/

/-- C5 counterexample: with an empty hostname (non-Android host, no DNS
properties), the written `/etc/hosts` still contains a line starting with
`127.0.1.1` — the claim's third conjunct fails. -/
theorem empty_hostname_claim_false :
    ¬ ((fix_networking_rootfs "" false (fun _ => "")).sethostnameCalled = false ∧
       (fix_networking_rootfs "" false (fun _ => "")).etcHostname = none ∧
       omits127011 (fix_networking_rootfs "" false (fun _ => "")).etcHosts = true) := by
  decide

/-- C5 (amended): with an empty configured hostname the Identity Writer
performs no `sethostname` and does not write `/etc/hostname`, but the
`/etc/hosts` it writes still contains the `127.0.1.1` line (with an empty
hostname after the tab). -/
theorem empty_hostname_effects (isAndroid : Bool) (store : PropStore) :
    (fix_networking_rootfs "" isAndroid store).sethostnameCalled = false ∧
    (fix_networking_rootfs "" isAndroid store).etcHostname = none ∧
    (fix_networking_rootfs "" isAndroid store).etcHosts =
      "127.0.0.1\tlocalhost\n::1\t\tlocalhost ip6-localhost ip6-loopback\n127.0.1.1\t\n" ∧
    omits127011 (fix_networking_rootfs "" isAndroid store).etcHosts = false := by
  have hh : (fix_networking_rootfs "" isAndroid store).etcHosts =
      "127.0.0.1\tlocalhost\n::1\t\tlocalhost ip6-localhost ip6-loopback\n127.0.1.1\t\n" := by
    have h0 : (fix_networking_rootfs "" isAndroid store).etcHosts =
        "127.0.0.1\tlocalhost\n" ++ "::1\t\tlocalhost ip6-localhost ip6-loopback\n" ++
          "127.0.1.1\t" ++ "" ++ "\n" := rfl
    rw [h0]; decide
  refine ⟨rfl, rfl, hh, by rw [hh]; decide⟩

/-- C4 (code bug evaluated): on an Android host where every queried DNS
property is absent or empty, `fix_networking_rootfs` emits an
`/etc/resolv.conf` with a single empty `nameserver` entry — the Google
default resolvers initialised by the caller were clobbered by
`android_fill_dns_from_props`, which clears both buffers before scanning
and leaves them empty on total failure. -/
theorem dns_all_props_empty_resolv_conf :
    resolvConfContent true (fun _ => "") = "nameserver \n" ∧
    resolvConfContent true (fun _ => "") ≠
      "nameserver 8.8.8.8\nnameserver 8.8.4.4\n" := by
  constructor <;> decide

/-! ## Claim theorems: seccomp filter -/

theorem drop_one_cons (a : α) (l : List α) : List.drop 1 (a :: l) = l := rfl

theorem drop_three_cons (a b c : α) (l : List α) :
    List.drop 3 (a :: b :: c :: l) = l := rfl

theorem drop_five_cons (a b c d e : α) (l : List α) :
    List.drop 5 (a :: b :: c :: d :: e :: l) = l := rfl

/-- C2: complete first-match classification of the installed filter.  Any
syscall whose architecture token differs from the compile-time one is
allowed; `reboot` traps; the three keyring syscalls return
`ERRNO(ENOSYS)`; exactly when `is_systemd` holds and the probed kernel
major is `< 5`, `unshare`/`clone` whose first argument intersects
`0x7E020000` return `ERRNO(EPERM)` (so `unshare(0)` is allowed); every
other syscall is allowed. -/
theorem seccomp_filter_classification
    (archK nrReboot nrKeyctl nrAddKey nrRequestKey nrUnshare nrClone : Nat)
    (is_systemd : Bool) (major : Int) (d : SeccompData) :
    runSeccompFilter archK nrReboot nrKeyctl nrAddKey nrRequestKey
        nrUnshare nrClone is_systemd major d =
      some (if d.arch ≠ archK then RET_ALLOW
        else if d.nr = nrReboot then RET_TRAP
        else if d.nr = nrKeyctl ∨ d.nr = nrAddKey ∨ d.nr = nrRequestKey then
          RET_ERRNO ENOSYS
        else if (is_systemd = true ∧ major < 5) ∧
            (d.nr = nrUnshare ∨ d.nr = nrClone) ∧ d.arg0 &&& nsMask ≠ 0 then
          RET_ERRNO EPERM
        else RET_ALLOW) := by
  unfold runSeccompFilter androidSeccompFilter
  by_cases h1 : d.arch = archK
  · by_cases h2 : d.nr = nrReboot
    · simp [bpfExec, loadField, h1, ← h2, drop_one_cons]
    · by_cases h3 : d.nr = nrKeyctl
      · simp [bpfExec, loadField, h1, h2, ← h3, drop_one_cons]
      · by_cases h4 : d.nr = nrAddKey
        · simp [bpfExec, loadField, h1, h2, h3, ← h4, drop_one_cons]
        · by_cases h5 : d.nr = nrRequestKey
          · simp [bpfExec, loadField, h1, h2, h3, h4, ← h5, drop_one_cons]
          · by_cases h6 : is_systemd = true ∧ major < 5
            · by_cases h7 : d.nr = nrUnshare
              · by_cases h9 : d.arg0 &&& nsMask = 0
                · simp [bpfExec, loadField, h1, h2, h3, h4, h5, h6, ← h7, h9,
                    drop_one_cons]
                · simp [bpfExec, loadField, h1, h2, h3, h4, h5, h6, ← h7, h9,
                    drop_one_cons]
              · by_cases h8 : d.nr = nrClone
                · by_cases h9 : d.arg0 &&& nsMask = 0
                  · simp [bpfExec, loadField, h1, h2, h3, h4, h5, h6, h7, ← h8,
                      h9, drop_one_cons]
                  · simp [bpfExec, loadField, h1, h2, h3, h4, h5, h6, h7, ← h8,
                      h9, drop_one_cons]
                · simp [bpfExec, loadField, h1, h2, h3, h4, h5, h6, h7, h8,
                    drop_one_cons, drop_three_cons]
            · simp [bpfExec, loadField, h1, h2, h3, h4, h5, h6, drop_one_cons,
                drop_five_cons]
  · simp [bpfExec, loadField, h1]

/-- C6: when the kernel release string cannot be parsed,
`android_seccomp_setup` builds exactly the filter of a modern (major = 5)
kernel — for every `is_systemd` the namespace-filtering branch is jumped
over — and a guest `unshare(CLONE_NEWNS)` is allowed. -/
theorem kernel_parse_failure_filter_modern
    (archK nrReboot nrKeyctl nrAddKey nrRequestKey nrUnshare nrClone : Nat)
    (is_systemd : Bool)
    (hr : nrUnshare ≠ nrReboot) (hk : nrUnshare ≠ nrKeyctl)
    (ha : nrUnshare ≠ nrAddKey) (hq : nrUnshare ≠ nrRequestKey) :
    android_seccomp_setup archK nrReboot nrKeyctl nrAddKey nrRequestKey
        nrUnshare nrClone is_systemd none =
      androidSeccompFilter archK nrReboot nrKeyctl nrAddKey nrRequestKey
        nrUnshare nrClone is_systemd 5 ∧
    bpfExec ⟨archK, nrUnshare, CLONE_NEWNS⟩
        (android_seccomp_setup archK nrReboot nrKeyctl nrAddKey nrRequestKey
          nrUnshare nrClone is_systemd none) 0 = some RET_ALLOW := by
  constructor
  · rfl
  · unfold android_seccomp_setup get_kernel_version androidSeccompFilter
    have h6 : ¬ (is_systemd = true ∧ (5 : Int) < 5) := by
      rintro ⟨-, h⟩; omega
    simp [bpfExec, loadField, hr, hk, ha, hq, h6, drop_one_cons,
      drop_five_cons]

/-- C6 witness: instantiated at the aarch64 syscall numbers. -/
theorem kernel_parse_failure_filter_modern_witness :
    android_seccomp_setup AUDIT_ARCH_AARCH64 NR_reboot_a64 NR_keyctl_a64
        NR_add_key_a64 NR_request_key_a64 NR_unshare_a64 NR_clone_a64
        true none =
      androidSeccompFilter AUDIT_ARCH_AARCH64 NR_reboot_a64 NR_keyctl_a64
        NR_add_key_a64 NR_request_key_a64 NR_unshare_a64 NR_clone_a64
        true 5 ∧
    bpfExec ⟨AUDIT_ARCH_AARCH64, NR_unshare_a64, CLONE_NEWNS⟩
        (android_seccomp_setup AUDIT_ARCH_AARCH64 NR_reboot_a64 NR_keyctl_a64
          NR_add_key_a64 NR_request_key_a64 NR_unshare_a64 NR_clone_a64
          true none) 0 = some RET_ALLOW :=
  kernel_parse_failure_filter_modern AUDIT_ARCH_AARCH64 NR_reboot_a64
    NR_keyctl_a64 NR_add_key_a64 NR_request_key_a64 NR_unshare_a64
    NR_clone_a64 true (by decide) (by decide) (by decide) (by decide)

/-! ## Lemmas about the group-file scan -/

theorem splitFirst_sound (c : Char) :
    ∀ (l a b : List Char), splitFirst c l = some (a, b) →
      l = a ++ c :: b ∧ c ∉ a := by
  intro l
  induction l with
  | nil => intro a b h; simp [splitFirst] at h
  | cons x xs ih =>
    intro a b h
    by_cases hx : x = c
    · simp [splitFirst, hx] at h
      obtain ⟨ha, hb⟩ := h
      subst ha; subst hb; subst hx
      simp
    · simp [splitFirst, hx] at h
      cases hs : splitFirst c xs with
      | none => rw [hs] at h; simp at h
      | some p =>
        obtain ⟨a', b'⟩ := p
        rw [hs] at h
        simp at h
        obtain ⟨ha, hb⟩ := h
        obtain ⟨hl, hna⟩ := ih a' b' hs
        subst ha; subst hb
        constructor
        · simp [hl]
        · intro hmem
          rcases List.mem_cons.mp hmem with hce | hca
          · exact hx hce.symm
          · exact hna hca

theorem splitFirst_append (c : Char) (a b : List Char) (h : c ∉ a) :
    splitFirst c (a ++ c :: b) = some (a, b) := by
  induction a with
  | nil => simp [splitFirst]
  | cons x xs ih =>
    have hx : ¬ x = c := by
      intro hxc; exact h (by simp [hxc])
    have hxs : c ∉ xs := by
      intro hc; exact h (by simp [hc])
    simp [splitFirst, hx, ih hxs]

theorem parseGroupLine_sound (l pre gidf users : List Char)
    (h : parseGroupLine l = some (pre, gidf, users)) :
    ∃ f1 f2, pre = f1 ++ ':' :: f2 ++ ':' :: gidf ∧
      l = pre ++ ':' :: users ∧ ':' ∉ f1 ∧ ':' ∉ f2 ∧ ':' ∉ gidf := by
  unfold parseGroupLine at h
  cases h1 : splitFirst ':' l with
  | none => rw [h1] at h; exact absurd h (by simp)
  | some p1 =>
    obtain ⟨f1, r1⟩ := p1
    rw [h1] at h; dsimp only at h
    cases h2 : splitFirst ':' r1 with
    | none => rw [h2] at h; exact absurd h (by simp)
    | some p2 =>
      obtain ⟨f2, r2⟩ := p2
      rw [h2] at h; dsimp only at h
      cases h3 : splitFirst ':' r2 with
      | none => rw [h3] at h; exact absurd h (by simp)
      | some p3 =>
        obtain ⟨f3, rest⟩ := p3
        rw [h3] at h; dsimp only at h
        simp only [Option.some.injEq, Prod.mk.injEq] at h
        obtain ⟨hpre, hgidf, husers⟩ := h
        obtain ⟨hl1, hn1⟩ := splitFirst_sound ':' l f1 r1 h1
        obtain ⟨hl2, hn2⟩ := splitFirst_sound ':' r1 f2 r2 h2
        obtain ⟨hl3, hn3⟩ := splitFirst_sound ':' r2 f3 rest h3
        subst hgidf; subst husers
        refine ⟨f1, f2, hpre.symm, ?_, hn1, hn2, hn3⟩
        subst hpre
        rw [hl1, hl2, hl3]
        simp

theorem parseGroupLine_construct (f1 f2 f3 users : List Char)
    (h1 : ':' ∉ f1) (h2 : ':' ∉ f2) (h3 : ':' ∉ f3) :
    parseGroupLine (f1 ++ ':' :: (f2 ++ ':' :: (f3 ++ ':' :: users))) =
      some (f1 ++ ':' :: f2 ++ ':' :: f3, f3, users) := by
  unfold parseGroupLine
  rw [splitFirst_append ':' f1 (f2 ++ ':' :: (f3 ++ ':' :: users)) h1]
  dsimp only
  rw [splitFirst_append ':' f2 (f3 ++ ':' :: users) h2]
  dsimp only
  rw [splitFirst_append ':' f3 users h3]

theorem rewriteLine_eq (pre users : List Char) :
    rewriteLine pre users =
      pre ++ ':' :: (if users.length > 0 then users ++ ',' :: rootUser
        else rootUser) := by
  unfold rewriteLine
  by_cases h : users.length > 0 <;> simp [h]

theorem parseGroupLine_rewrite (l pre gidf users : List Char)
    (h : parseGroupLine l = some (pre, gidf, users)) :
    parseGroupLine (rewriteLine pre users) =
      some (pre, gidf,
        if users.length > 0 then users ++ ',' :: rootUser else rootUser) := by
  obtain ⟨f1, f2, hpre, hl, hn1, hn2, hn3⟩ := parseGroupLine_sound l pre gidf users h
  rw [rewriteLine_eq, hpre]
  have := parseGroupLine_construct f1 f2 gidf
    (if users.length > 0 then users ++ ',' :: rootUser else rootUser) hn1 hn2 hn3
  simpa using this

theorem line_eq_pre_users (l pre gidf users : List Char)
    (h : parseGroupLine l = some (pre, gidf, users)) :
    l = pre ++ ':' :: users :=
  (parseGroupLine_sound l pre gidf users h).choose_spec.choose_spec.2.1

theorem rewriteLine_length_gt (pre users : List Char) :
    (pre ++ ':' :: users).length < (rewriteLine pre users).length := by
  rw [rewriteLine_eq]
  by_cases h : users.length > 0
  · simp [h, rootUser]
  · simp [h, rootUser]
    omega

theorem rewriteLine_ne (l pre gidf users : List Char)
    (h : parseGroupLine l = some (pre, gidf, users)) :
    rewriteLine pre users ≠ l := by
  intro heq
  have hl := line_eq_pre_users l pre gidf users h
  have h1 : (rewriteLine pre users).length = l.length := by rw [heq]
  rw [hl] at h1
  have h2 := rewriteLine_length_gt pre users
  omega

/-! ## `has_user` lemmas -/

theorem hasUser_rootUser : hasUser rootUser rootUser = true := by decide

theorem hasUser_append_comma_root (users : List Char) :
    hasUser (users ++ ',' :: rootUser) rootUser = true := by
  unfold hasUser
  rw [List.any_eq_true]
  refine ⟨users.length + 1, ?_, ?_⟩
  · have hlen : (users ++ ',' :: rootUser).length = users.length + 5 := by
      simp [rootUser]
    rw [List.mem_range, hlen]
    omega
  · have hd : (users ++ ',' :: rootUser).drop (users.length + 1) = rootUser := by
      rw [List.append_cons users ',' rootUser]
      exact List.drop_left' (by simp)
    have hd1 : (users ++ ',' :: rootUser).drop (users.length + 1 - 1) =
        ',' :: rootUser := by
      have he : users.length + 1 - 1 = users.length := rfl
      rw [he]
      exact List.drop_left users (',' :: rootUser)
    rw [hd, hd1]
    simp [rootUser]

theorem hasUser_if_added (users : List Char) :
    hasUser (if users.length > 0 then users ++ ',' :: rootUser else rootUser)
      rootUser = true := by
  by_cases h : users.length > 0
  · simp only [h, if_pos]
    exact hasUser_append_comma_root users
  · simp only [h, if_neg, Bool.not_eq_true]
    exact hasUser_rootUser

/-! ## Decimal rendering and `atoi` round trip -/

theorem digitChar10_isDigit (d : Nat) : (digitChar10 d).isDigit = true := by
  unfold digitChar10
  split <;> decide

theorem digitChar10_toNat (d : Nat) (h : d < 10) :
    (digitChar10 d).toNat = 48 + d := by
  unfold digitChar10
  interval_cases d <;> decide

theorem isDigit_not_space (c : Char) (h : c.isDigit = true) :
    isCSpace c = false := by
  unfold isCSpace
  unfold Char.isDigit at h
  simp only [Bool.and_eq_true, decide_eq_true_eq] at h
  simp only [decide_eq_false_iff_not, not_or]
  have h1 := h.1
  have h2 := h.2
  refine ⟨?_, ?_, ?_, ?_, ?_, ?_⟩ <;>
    intro he <;> subst he <;> revert h1 h2 <;> decide

theorem isDigit_ne_colon (c : Char) (h : c.isDigit = true) : c ≠ ':' := by
  intro he; subst he; exact absurd h (by decide)

theorem isDigit_ne_minus (c : Char) (h : c.isDigit = true) : c ≠ '-' := by
  intro he; subst he; exact absurd h (by decide)

theorem isDigit_ne_plus (c : Char) (h : c.isDigit = true) : c ≠ '+' := by
  intro he; subst he; exact absurd h (by decide)

theorem natDigitsRev_digits (n : Nat) :
    ∀ c ∈ natDigitsRev n, c.isDigit = true := by
  induction n using Nat.strong_induction_on with
  | _ n ih =>
    unfold natDigitsRev
    by_cases h : n < 10
    · simp [h, digitChar10_isDigit]
    · simp only [h, dite_false]
      intro c hc
      rcases List.mem_cons.mp hc with hc0 | hcs
      · subst hc0; exact digitChar10_isDigit _
      · exact ih (n / 10) (Nat.div_lt_self (by omega) (by omega)) c hcs

theorem natDigitsRev_ne_nil (n : Nat) : natDigitsRev n ≠ [] := by
  unfold natDigitsRev
  by_cases h : n < 10 <;> simp [h]

theorem natRepr10_digits (n : Nat) :
    ∀ c ∈ natRepr10 n, c.isDigit = true := by
  intro c hc
  exact natDigitsRev_digits n c (List.mem_reverse.mp hc)

theorem natRepr10_ne_nil (n : Nat) : natRepr10 n ≠ [] := by
  unfold natRepr10
  simp [natDigitsRev_ne_nil n]

theorem atoiDigits_eq_foldl (ds : List Char) (acc : Nat)
    (h : ∀ c ∈ ds, c.isDigit = true) :
    atoiDigits ds acc =
      ds.foldl (fun a c => a * 10 + (c.toNat - 48)) acc := by
  induction ds generalizing acc with
  | nil => rfl
  | cons c cs ih =>
    have hc : c.isDigit = true := h c (by simp)
    have hcs : ∀ x ∈ cs, x.isDigit = true := fun x hx => h x (by simp [hx])
    simp [atoiDigits, hc, ih _ hcs]

theorem foldr_natDigitsRev (n : Nat) :
    (natDigitsRev n).foldr (fun c a => a * 10 + (c.toNat - 48)) 0 = n := by
  induction n using Nat.strong_induction_on with
  | _ n ih =>
    unfold natDigitsRev
    by_cases h : n < 10
    · rw [dif_pos h]
      simp only [List.foldr_cons, List.foldr_nil]
      rw [digitChar10_toNat n h]
      omega
    · rw [dif_neg h]
      simp only [List.foldr_cons]
      rw [ih (n / 10) (Nat.div_lt_self (by omega) (by omega))]
      rw [digitChar10_toNat (n % 10) (Nat.mod_lt n (by omega))]
      omega

theorem atoiDigits_natRepr10 (n : Nat) : atoiDigits (natRepr10 n) 0 = n := by
  rw [atoiDigits_eq_foldl _ _ (natRepr10_digits n)]
  unfold natRepr10
  rw [List.foldl_reverse]
  exact foldr_natDigitsRev n

theorem atoi_natRepr10 (n : Nat) : atoi (natRepr10 n) = (n : Int) := by
  unfold atoi
  obtain ⟨c, cs, hcc⟩ : ∃ c cs, natRepr10 n = c :: cs := by
    cases hh : natRepr10 n with
    | nil => exact absurd hh (natRepr10_ne_nil n)
    | cons c cs => exact ⟨c, cs, rfl⟩
  have hc : c.isDigit = true := by
    apply natRepr10_digits n
    simp [hcc]
  have hdw : (natRepr10 n).dropWhile isCSpace = natRepr10 n := by
    rw [hcc, List.dropWhile_cons, isDigit_not_space c hc]
    simp
  rw [hdw, hcc]
  have hm : c ≠ '-' := isDigit_ne_minus c hc
  have hp : c ≠ '+' := isDigit_ne_plus c hc
  split
  · rename_i rest heq
    injection heq with h1 _
    exact absurd h1 hm
  · rename_i rest heq
    injection heq with h1 _
    exact absurd h1 hp
  · rw [← hcc, atoiDigits_natRepr10]

theorem atoi_neg_natRepr10 (m : Nat) :
    atoi ('-' :: natRepr10 m) = -(m : Int) := by
  unfold atoi
  have hdw : ('-' :: natRepr10 m).dropWhile isCSpace = '-' :: natRepr10 m := by
    rw [List.dropWhile_cons]
    simp [isCSpace]
  rw [hdw]
  show -((atoiDigits (natRepr10 m) 0 : Nat) : Int) = -(m : Int)
  rw [atoiDigits_natRepr10]

theorem intRepr10_nonneg (g : Nat) (h : g < 2147483648) :
    intRepr10 (intOfGid g) = natRepr10 g := by
  unfold intOfGid intRepr10
  simp [h]

theorem intRepr10_neg (g : Nat) (h1 : 2147483648 ≤ g) (h2 : g < 4294967296) :
    intRepr10 (intOfGid g) = '-' :: natRepr10 (4294967296 - g) := by
  unfold intOfGid intRepr10
  have hlt : ¬ g < 2147483648 := by omega
  have hneg : ((g : Int) - 4294967296) < 0 := by omega
  simp only [hlt, if_false, hneg, if_pos]
  congr 1
  have : ((g : Int) - 4294967296).natAbs = 4294967296 - g := by omega
  rw [this]

theorem gid_round_trip (g : Nat) (h : g < 4294967296) :
    gidOfInt (atoi (intRepr10 (intOfGid g))) = g := by
  by_cases hs : g < 2147483648
  · rw [intRepr10_nonneg g hs, atoi_natRepr10]
    unfold gidOfInt
    omega
  · rw [intRepr10_neg g (by omega) h, atoi_neg_natRepr10]
    unfold gidOfInt
    omega

theorem intRepr10_ne_colon (i : Int) : ∀ c ∈ intRepr10 i, c ≠ ':' := by
  unfold intRepr10
  by_cases h : i < 0
  · simp only [h, if_pos]
    intro c hc
    rcases List.mem_cons.mp hc with h0 | hrest
    · subst h0; decide
    · exact isDigit_ne_colon c (natRepr10_digits _ c hrest)
  · simp only [h, if_neg]
    intro c hc
    exact isDigit_ne_colon c (natRepr10_digits _ c hc)

/-! ## Decomposing the `setup_gpu_groups` scan loop -/

theorem groupScanStep_eq (gpu_gids : List Nat) (st : GroupScanState)
    (l : List Char) :
    groupScanStep gpu_gids st l =
      { found := markLine gpu_gids st.found l,
        out := st.out ++ [transformLine gpu_gids l],
        modified :=
          st.modified + (if lineRewrittenB gpu_gids l then 1 else 0) } := by
  unfold groupScanStep markLine transformLine lineRewrittenB
  cases hp : parseGroupLine l with
  | none => simp [hp]
  | some t =>
    obtain ⟨pre, gidf, users⟩ := t
    cases hf : gpu_gids.findIdx? (fun g => g = gidOfInt (atoi gidf)) with
    | none => simp [hp, hf]
    | some i =>
      by_cases hu : hasUser users rootUser <;> simp [hp, hf, hu]

theorem foldl_groupScanStep (gpu_gids : List Nat) (lines : List (List Char)) :
    ∀ st : GroupScanState,
      lines.foldl (groupScanStep gpu_gids) st =
        { found := lines.foldl (markLine gpu_gids) st.found,
          out := st.out ++ lines.map (transformLine gpu_gids),
          modified :=
            st.modified + lines.countP (lineRewrittenB gpu_gids) } := by
  induction lines with
  | nil => intro st; simp
  | cons l ls ih =>
    intro st
    rw [List.foldl_cons, List.foldl_cons, groupScanStep_eq, ih]
    simp only [GroupScanState.mk.injEq, List.map_cons, List.countP_cons,
      List.append_assoc, List.singleton_append]
    refine ⟨trivial, trivial, ?_⟩
    omega

theorem setup_gpu_groups_eq (gpu_gids : List Nat) (lines : List (List Char)) :
    setup_gpu_groups gpu_gids lines =
      (if scanModified gpu_gids lines > 0 then
        { lines := scanOut gpu_gids lines,
          modified := scanModified gpu_gids lines, renamed := true }
      else { lines := lines, modified := 0, renamed := false }) := by
  unfold setup_gpu_groups scanOut scanModified scanFound
  simp only [foldl_groupScanStep]
  simp

/-! ## The `found_gids` array after the scan -/

theorem markLine_length (gpu_gids : List Nat) (found : List Bool)
    (l : List Char) : (markLine gpu_gids found l).length = found.length := by
  unfold markLine
  cases hp : parseGroupLine l with
  | none => simp [hp]
  | some t =>
    obtain ⟨pre, gidf, users⟩ := t
    cases hf : gpu_gids.findIdx? (fun g => g = gidOfInt (atoi gidf)) with
    | none => simp [hp, hf]
    | some i => simp [hp, hf]

theorem markLine_getElem? (gpu_gids : List Nat) (found : List Bool)
    (l : List Char) (i : Nat) (hi : i < found.length) :
    (markLine gpu_gids found l)[i]? =
      some (found[i] || lineMarksB gpu_gids i l) := by
  unfold markLine lineMarksB
  cases hp : parseGroupLine l with
  | none => simp [hp, List.getElem?_eq_getElem hi]
  | some t =>
    obtain ⟨pre, gidf, users⟩ := t
    cases hf : gpu_gids.findIdx? (fun g => g = gidOfInt (atoi gidf)) with
    | none => simp [hp, hf, List.getElem?_eq_getElem hi]
    | some j =>
      by_cases hji : j = i
      · subst hji
        simp only [hp, hf]
        rw [List.getElem?_set_self hi]
        simp
      · simp only [hp, hf]
        rw [List.getElem?_set_ne hji]
        simp [List.getElem?_eq_getElem hi, hji]

theorem foldl_markLine_getElem? (gpu_gids : List Nat)
    (lines : List (List Char)) :
    ∀ (found : List Bool) (i : Nat) (hi : i < found.length),
      (lines.foldl (markLine gpu_gids) found)[i]? =
        some (found[i] || lines.any (lineMarksB gpu_gids i)) := by
  induction lines with
  | nil => intro found i hi; simp [List.getElem?_eq_getElem hi]
  | cons l ls ih =>
    intro found i hi
    have hi' : i < (markLine gpu_gids found l).length := by
      rw [markLine_length]; exact hi
    rw [List.foldl_cons, ih (markLine gpu_gids found l) i hi']
    have hm := markLine_getElem? gpu_gids found l i hi
    rw [List.getElem?_eq_getElem hi'] at hm
    injection hm with hv
    rw [hv, List.any_cons]
    congr 1
    cases found[i] <;> cases lineMarksB gpu_gids i l <;>
      cases ls.any (lineMarksB gpu_gids i) <;> rfl

theorem scanFound_length (gpu_gids : List Nat) (lines : List (List Char)) :
    (scanFound gpu_gids lines).length = gpu_gids.length := by
  unfold scanFound
  have : ∀ (ls : List (List Char)) (found : List Bool),
      (ls.foldl (markLine gpu_gids) found).length = found.length := by
    intro ls
    induction ls with
    | nil => intro found; rfl
    | cons l ls ih =>
      intro found
      rw [List.foldl_cons, ih, markLine_length]
  rw [this]
  simp

theorem scanFound_getElem? (gpu_gids : List Nat) (lines : List (List Char))
    (i : Nat) (hi : i < gpu_gids.length) :
    (scanFound gpu_gids lines)[i]? =
      some (lines.any (lineMarksB gpu_gids i)) := by
  unfold scanFound
  rw [foldl_markLine_getElem? gpu_gids lines
    (List.replicate gpu_gids.length false) i (by simp [hi])]
  simp

/-! ## Per-line behaviour of the scan -/

theorem transformLine_parse_none (gpu_gids : List Nat) (l : List Char)
    (hp : parseGroupLine l = none) : transformLine gpu_gids l = l := by
  unfold transformLine
  simp [hp]

theorem transformLine_not_mem (gpu_gids : List Nat) (l pre gidf users : List Char)
    (hp : parseGroupLine l = some (pre, gidf, users))
    (hm : gidOfInt (atoi gidf) ∉ gpu_gids) : transformLine gpu_gids l = l := by
  unfold transformLine
  have hf : gpu_gids.findIdx? (fun g => g = gidOfInt (atoi gidf)) = none := by
    rw [List.findIdx?_eq_none_iff]
    intro x hx
    simp only [decide_eq_false_iff_not]
    intro he
    exact hm (he ▸ hx)
  simp [hp, hf]

theorem transformLine_hasUser (gpu_gids : List Nat) (l pre gidf users : List Char)
    (hp : parseGroupLine l = some (pre, gidf, users))
    (hu : hasUser users rootUser = true) : transformLine gpu_gids l = l := by
  unfold transformLine
  cases hf : gpu_gids.findIdx? (fun g => g = gidOfInt (atoi gidf)) with
  | none => simp [hp, hf]
  | some i => simp [hp, hf, hu]

theorem transformLine_rewrites (gpu_gids : List Nat) (l pre gidf users : List Char)
    (hp : parseGroupLine l = some (pre, gidf, users))
    (hm : gidOfInt (atoi gidf) ∈ gpu_gids)
    (hu : hasUser users rootUser = false) :
    transformLine gpu_gids l = rewriteLine pre users := by
  unfold transformLine
  have hsome : (gpu_gids.findIdx? (fun g => g = gidOfInt (atoi gidf))).isSome := by
    rw [List.findIdx?_isSome, List.any_eq_true]
    exact ⟨gidOfInt (atoi gidf), hm, by simp⟩
  cases hf : gpu_gids.findIdx? (fun g => g = gidOfInt (atoi gidf)) with
  | none => rw [hf] at hsome; exact absurd hsome (by simp)
  | some i => simp [hp, hf, hu]

theorem lineRewrittenB_iff (gpu_gids : List Nat) (l : List Char) :
    lineRewrittenB gpu_gids l = true ↔
      ∃ pre gidf users, parseGroupLine l = some (pre, gidf, users) ∧
        gidOfInt (atoi gidf) ∈ gpu_gids ∧ hasUser users rootUser = false := by
  unfold lineRewrittenB
  cases hp : parseGroupLine l with
  | none => simp [hp]
  | some t =>
    obtain ⟨pre, gidf, users⟩ := t
    simp only [hp, Bool.and_eq_true, Bool.not_eq_true', Option.some.injEq,
      Prod.mk.injEq, List.findIdx?_isSome, List.any_eq_true,
      decide_eq_true_eq]
    constructor
    · rintro ⟨⟨g, hg, he⟩, hu⟩
      exact ⟨pre, gidf, users, ⟨rfl, rfl, rfl⟩, he ▸ hg, hu⟩
    · rintro ⟨pre', gidf', users', ⟨h1, h2, h3⟩, hm, hu⟩
      subst h1; subst h2; subst h3
      exact ⟨⟨gidOfInt (atoi gidf), hm, rfl⟩, hu⟩

theorem transformLine_parse (gpu_gids : List Nat) (l pre gidf users : List Char)
    (hp : parseGroupLine l = some (pre, gidf, users)) :
    ∃ users2, parseGroupLine (transformLine gpu_gids l) =
        some (pre, gidf, users2) ∧
      (transformLine gpu_gids l = l ∧ users2 = users ∨
        hasUser users2 rootUser = true) := by
  by_cases hm : gidOfInt (atoi gidf) ∈ gpu_gids
  · by_cases hu : hasUser users rootUser
    · refine ⟨users, ?_, Or.inl ⟨?_, rfl⟩⟩
      · rw [transformLine_hasUser gpu_gids l pre gidf users hp hu]
        exact hp
      · exact transformLine_hasUser gpu_gids l pre gidf users hp hu
    · refine ⟨if users.length > 0 then users ++ ',' :: rootUser else rootUser,
        ?_, Or.inr (hasUser_if_added users)⟩
      rw [transformLine_rewrites gpu_gids l pre gidf users hp hm
        (by simpa using hu)]
      exact parseGroupLine_rewrite l pre gidf users hp
  · refine ⟨users, ?_, Or.inl ⟨?_, rfl⟩⟩
    · rw [transformLine_not_mem gpu_gids l pre gidf users hp hm]
      exact hp
    · exact transformLine_not_mem gpu_gids l pre gidf users hp hm

theorem lineRewrittenB_transform (gpu_gids : List Nat) (l : List Char) :
    lineRewrittenB gpu_gids (transformLine gpu_gids l) = false := by
  cases hp : parseGroupLine l with
  | none =>
    rw [transformLine_parse_none gpu_gids l hp]
    unfold lineRewrittenB
    simp [hp]
  | some t =>
    obtain ⟨pre, gidf, users⟩ := t
    by_cases hm : gidOfInt (atoi gidf) ∈ gpu_gids
    · by_cases hu : hasUser users rootUser
      · rw [transformLine_hasUser gpu_gids l pre gidf users hp hu]
        unfold lineRewrittenB
        simp [hp, hu]
      · rw [transformLine_rewrites gpu_gids l pre gidf users hp hm
          (by simpa using hu)]
        have hp2 := parseGroupLine_rewrite l pre gidf users hp
        unfold lineRewrittenB
        rw [hp2]
        simp [hasUser_if_added users]
    · rw [transformLine_not_mem gpu_gids l pre gidf users hp hm]
      unfold lineRewrittenB
      have hf : gpu_gids.findIdx? (fun g => g = gidOfInt (atoi gidf)) = none := by
        rw [List.findIdx?_eq_none_iff]
        intro x hx
        simp only [decide_eq_false_iff_not]
        intro he
        exact hm (he ▸ hx)
      simp [hp, hf]

/-! ## The appended `gpu_<gid>` records -/

theorem parseGroupLine_gpuRecord (g : Nat) :
    parseGroupLine (gpuRecord g) =
      some (('g' :: 'p' :: 'u' :: '_' :: intRepr10 (intOfGid g)) ++
          ':' :: ['x'] ++ ':' :: intRepr10 (intOfGid g),
        intRepr10 (intOfGid g), rootUser) := by
  have h1 : ':' ∉ 'g' :: 'p' :: 'u' :: '_' :: intRepr10 (intOfGid g) := by
    intro hc
    rcases List.mem_cons.mp hc with he | hc; · exact absurd he.symm (by decide)
    rcases List.mem_cons.mp hc with he | hc; · exact absurd he.symm (by decide)
    rcases List.mem_cons.mp hc with he | hc; · exact absurd he.symm (by decide)
    rcases List.mem_cons.mp hc with he | hc; · exact absurd he.symm (by decide)
    exact intRepr10_ne_colon (intOfGid g) ':' hc rfl
  have h2 : ':' ∉ ['x'] := by decide
  have h3 : ':' ∉ intRepr10 (intOfGid g) := by
    intro hc
    exact intRepr10_ne_colon (intOfGid g) ':' hc rfl
  have hc := parseGroupLine_construct
    ('g' :: 'p' :: 'u' :: '_' :: intRepr10 (intOfGid g)) ['x']
    (intRepr10 (intOfGid g)) rootUser h1 h2 h3
  have hshape : gpuRecord g =
      ('g' :: 'p' :: 'u' :: '_' :: intRepr10 (intOfGid g)) ++
        ':' :: (['x'] ++ ':' :: (intRepr10 (intOfGid g) ++ ':' :: rootUser)) := by
    unfold gpuRecord
    simp
  rw [hshape, hc]

theorem gidValue_gpuRecord (g : Nat) (h : g < 4294967296) :
    ∃ pre users, parseGroupLine (gpuRecord g) = some (pre, intRepr10 (intOfGid g), users) ∧
      gidOfInt (atoi (intRepr10 (intOfGid g))) = g :=
  ⟨_, _, parseGroupLine_gpuRecord g, gid_round_trip g h⟩

theorem lineRewrittenB_gpuRecord (gpu_gids : List Nat) (g : Nat) :
    lineRewrittenB gpu_gids (gpuRecord g) = false := by
  unfold lineRewrittenB
  rw [parseGroupLine_gpuRecord g]
  simp [hasUser_rootUser]

theorem transformLine_gpuRecord (gpu_gids : List Nat) (g : Nat) :
    transformLine gpu_gids (gpuRecord g) = gpuRecord g := by
  unfold transformLine
  rw [parseGroupLine_gpuRecord g]
  cases hf : gpu_gids.findIdx?
      (fun x => x = gidOfInt (atoi (intRepr10 (intOfGid g)))) with
  | none => simp [hf]
  | some i => simp [hf, hasUser_rootUser]

/-! ## Marks, `findIdx?` and `Nodup` -/

theorem findIdx?_value (gpu_gids : List Nat) (v i : Nat)
    (h : gpu_gids.findIdx? (fun g => g = v) = some i) :
    ∃ hi : i < gpu_gids.length, gpu_gids[i] = v := by
  rw [List.findIdx?_eq_some_iff_getElem] at h
  obtain ⟨hi, hp, _⟩ := h
  exact ⟨hi, by simpa using hp⟩

theorem findIdx?_self_of_nodup (gpu_gids : List Nat) (hnd : gpu_gids.Nodup)
    (i : Nat) (hi : i < gpu_gids.length) :
    gpu_gids.findIdx? (fun g => g = gpu_gids[i]) = some i := by
  rw [List.findIdx?_eq_some_iff_getElem]
  refine ⟨hi, by simp, ?_⟩
  intro j hji
  simp only [decide_eq_true_eq, Bool.not_eq_true, decide_eq_false_iff_not]
  intro he
  have := (List.Nodup.getElem_inj_iff hnd).mp he
  omega

theorem lineHasGid_iff (g : Nat) (l : List Char) :
    lineHasGid g l = true ↔
      ∃ pre gidf users, parseGroupLine l = some (pre, gidf, users) ∧
        gidOfInt (atoi gidf) = g := by
  unfold lineHasGid
  cases hp : parseGroupLine l with
  | none => simp [hp]
  | some t =>
    obtain ⟨pre, gidf, users⟩ := t
    simp only [hp, decide_eq_true_eq, Option.some.injEq, Prod.mk.injEq]
    constructor
    · intro hv
      exact ⟨pre, gidf, users, ⟨rfl, rfl, rfl⟩, hv⟩
    · rintro ⟨pre', gidf', users', ⟨h1, h2, h3⟩, hv⟩
      subst h2
      exact hv

theorem lineMarksB_hasGid (gpu_gids : List Nat) (i : Nat) (l : List Char)
    (h : lineMarksB gpu_gids i l = true) :
    ∃ g, gpu_gids[i]? = some g ∧ lineHasGid g l = true := by
  unfold lineMarksB at h
  cases hp : parseGroupLine l with
  | none => rw [hp] at h; simp at h
  | some t =>
    obtain ⟨pre, gidf, users⟩ := t
    rw [hp] at h
    simp only [decide_eq_true_eq] at h
    obtain ⟨hi, hv⟩ := findIdx?_value gpu_gids (gidOfInt (atoi gidf)) i h
    refine ⟨gidOfInt (atoi gidf), ?_, ?_⟩
    · rw [List.getElem?_eq_getElem hi, hv]
    · rw [lineHasGid_iff]
      exact ⟨pre, gidf, users, hp, rfl⟩

theorem hasGid_lineMarksB (gpu_gids : List Nat) (hnd : gpu_gids.Nodup)
    (i : Nat) (hi : i < gpu_gids.length) (l : List Char)
    (h : lineHasGid gpu_gids[i] l = true) : lineMarksB gpu_gids i l = true := by
  obtain ⟨pre, gidf, users, hp, hv⟩ := (lineHasGid_iff _ l).mp h
  unfold lineMarksB
  rw [hp]
  simp only [decide_eq_true_eq]
  rw [hv]
  exact findIdx?_self_of_nodup gpu_gids hnd i hi

/-! ## The append loop -/

theorem missingRecords_nil (gpu_gids : List Nat) (found : List Bool)
    (hlen : found.length = gpu_gids.length)
    (h : ∀ (i : Nat) (hi : i < found.length), found[i] = true) :
    missingRecords gpu_gids found = [] := by
  unfold missingRecords
  rw [List.filterMap_eq_nil_iff]
  intro a ha
  obtain ⟨i, hilen, hgi⟩ := List.mem_iff_getElem.mp ha
  have hz : (gpu_gids.zip found)[i]? = some a := by
    rw [List.getElem?_eq_getElem hilen, hgi]
  rw [List.getElem?_zip_eq_some] at hz
  obtain ⟨hz1, hz2⟩ := hz
  have hil : i < found.length := by
    have := List.getElem?_eq_some_iff.mp hz2
    exact this.choose
  have hfi : found[i] = a.2 := by
    rw [List.getElem?_eq_getElem hil] at hz2
    injection hz2
  have := h i hil
  rw [hfi] at this
  simp [this]

theorem missingRecords_mem (gpu_gids : List Nat) (found : List Bool)
    (g : Nat) (i : Nat) (higids : i < gpu_gids.length)
    (hif : i < found.length)
    (hgi : gpu_gids[i] = g)
    (hfi : found[i] = false) :
    gpuRecord g ∈ missingRecords gpu_gids found := by
  unfold missingRecords
  rw [List.mem_filterMap]
  refine ⟨(g, false), ?_, rfl⟩
  have hz : (gpu_gids.zip found)[i]? = some (g, false) := by
    rw [List.getElem?_zip_eq_some]
    constructor
    · rw [List.getElem?_eq_getElem higids, hgi]
    · rw [List.getElem?_eq_getElem hif, hfi]
  exact List.getElem?_mem hz

theorem missingRecords_ne_nil (gpu_gids : List Nat) (found : List Bool)
    (hne : missingRecords gpu_gids found ≠ []) :
    ∃ (i : Nat) (hi : i < gpu_gids.length) (hif : i < found.length),
      found[i] = false := by
  unfold missingRecords at hne
  rw [Ne, List.filterMap_eq_nil_iff] at hne
  push_neg at hne
  obtain ⟨a, ha, hfa⟩ := hne
  obtain ⟨i, hilen, hgi⟩ := List.mem_iff_getElem.mp ha
  have hz : (gpu_gids.zip found)[i]? = some a := by
    rw [List.getElem?_eq_getElem hilen, hgi]
  rw [List.getElem?_zip_eq_some] at hz
  obtain ⟨hz1, hz2⟩ := hz
  have hi1 : i < gpu_gids.length := (List.getElem?_eq_some_iff.mp hz1).choose
  have hi2 : i < found.length := (List.getElem?_eq_some_iff.mp hz2).choose
  refine ⟨i, hi1, hi2, ?_⟩
  have hfi : found[i] = a.2 := by
    rw [List.getElem?_eq_getElem hi2] at hz2
    injection hz2
  rw [hfi]
  by_contra htrue
  rw [Bool.not_eq_false] at htrue
  exact hfa (by simp [htrue])

/-! ## Output lines of `setup_gpu_groups` -/

theorem transformLine_self_of_not_rewritten (gpu_gids : List Nat)
    (l : List Char) (h : lineRewrittenB gpu_gids l = false) :
    transformLine gpu_gids l = l := by
  cases hp : parseGroupLine l with
  | none => exact transformLine_parse_none gpu_gids l hp
  | some t =>
    obtain ⟨pre, gidf, users⟩ := t
    by_cases hm : gidOfInt (atoi gidf) ∈ gpu_gids
    · by_cases hu : hasUser users rootUser
      · exact transformLine_hasUser gpu_gids l pre gidf users hp hu
      · exact absurd ((lineRewrittenB_iff gpu_gids l).mpr
          ⟨pre, gidf, users, hp, hm, by simpa using hu⟩) (by simp [h])
    · exact transformLine_not_mem gpu_gids l pre gidf users hp hm

theorem setup_lines_getElem? (gpu_gids : List Nat) (lines : List (List Char))
    (k : Nat) (hk : k < lines.length) :
    (setup_gpu_groups gpu_gids lines).lines[k]? =
      some (transformLine gpu_gids lines[k]) := by
  rw [setup_gpu_groups_eq]
  by_cases hmod : scanModified gpu_gids lines > 0
  · rw [if_pos hmod]
    show (scanOut gpu_gids lines)[k]? = _
    unfold scanOut
    rw [List.getElem?_append_left (by simpa using hk), List.getElem?_map,
      List.getElem?_eq_getElem hk]
    rfl
  · rw [if_neg hmod]
    have hcount : lines.countP (lineRewrittenB gpu_gids) = 0 := by
      unfold scanModified at hmod
      omega
    have hB : lineRewrittenB gpu_gids lines[k] = false := by
      have := List.countP_eq_zero.mp hcount lines[k] (List.getElem_mem hk)
      simpa using this
    rw [transformLine_self_of_not_rewritten gpu_gids _ hB]
    exact List.getElem?_eq_getElem hk

theorem lineMarksB_transform (gpu_gids : List Nat) (i : Nat) (l : List Char) :
    lineMarksB gpu_gids i (transformLine gpu_gids l) =
      lineMarksB gpu_gids i l := by
  cases hp : parseGroupLine l with
  | none => rw [transformLine_parse_none gpu_gids l hp]
  | some t =>
    obtain ⟨pre, gidf, users⟩ := t
    obtain ⟨users2, hp2, -⟩ := transformLine_parse gpu_gids l pre gidf users hp
    unfold lineMarksB
    rw [hp, hp2]

theorem lineMarksB_gpuRecord (gpu_gids : List Nat) (hnd : gpu_gids.Nodup)
    (i : Nat) (hi : i < gpu_gids.length) (hlt : gpu_gids[i] < 4294967296) :
    lineMarksB gpu_gids i (gpuRecord gpu_gids[i]) = true := by
  unfold lineMarksB
  rw [parseGroupLine_gpuRecord]
  simp only [decide_eq_true_eq]
  rw [gid_round_trip _ hlt]
  exact findIdx?_self_of_nodup gpu_gids hnd i hi

theorem rewriteLine_append (l pre gidf users : List Char)
    (hp : parseGroupLine l = some (pre, gidf, users)) :
    rewriteLine pre users =
      l ++ (if users.length > 0 then ',' :: rootUser else rootUser) := by
  rw [rewriteLine_eq, line_eq_pre_users l pre gidf users hp]
  by_cases h : users.length > 0
  · simp [h]
  · have hnil : users = [] := List.length_eq_zero.mp (by omega)
    subst hnil
    simp

/-! ## Claim theorems: GPU group reconciliation -/

/-- C9 (frame): every input line that does not parse with three colons, and
every parsed line whose GID value matches no probed GID, is emitted
byte-for-byte unchanged at its original position; conversely a line whose
output differs must have parsed with a probed GID and lacked `root`. -/
theorem gpu_groups_frame (gpu_gids : List Nat) (lines : List (List Char))
    (k : Nat) (hk : k < lines.length) :
    (parseGroupLine lines[k] = none →
      (setup_gpu_groups gpu_gids lines).lines[k]? = some lines[k]) ∧
    (∀ pre gidf users, parseGroupLine lines[k] = some (pre, gidf, users) →
      gidOfInt (atoi gidf) ∉ gpu_gids →
      (setup_gpu_groups gpu_gids lines).lines[k]? = some lines[k]) ∧
    ((setup_gpu_groups gpu_gids lines).lines[k]? ≠ some lines[k] →
      ∃ pre gidf users, parseGroupLine lines[k] = some (pre, gidf, users) ∧
        gidOfInt (atoi gidf) ∈ gpu_gids ∧ hasUser users rootUser = false) := by
  refine ⟨?_, ?_, ?_⟩
  · intro hp
    rw [setup_lines_getElem? gpu_gids lines k hk,
      transformLine_parse_none gpu_gids _ hp]
  · intro pre gidf users hp hm
    rw [setup_lines_getElem? gpu_gids lines k hk,
      transformLine_not_mem gpu_gids _ pre gidf users hp hm]
  · intro hne
    rw [setup_lines_getElem? gpu_gids lines k hk] at hne
    have hB : lineRewrittenB gpu_gids lines[k] = true := by
      by_contra hfalse
      rw [Bool.not_eq_true] at hfalse
      exact hne (by
        rw [transformLine_self_of_not_rewritten gpu_gids _ hfalse])
    exact (lineRewrittenB_iff gpu_gids lines[k]).mp hB

/-- C9 witness: a line whose GID (1) matches no probed GID is passed
through unchanged at index 0. -/
theorem gpu_groups_frame_witness :
    (setup_gpu_groups [240, 44] ["daemon:x:1:".data]).lines[0]? =
      some "daemon:x:1:".data :=
  (gpu_groups_frame [240, 44] ["daemon:x:1:".data] 0 (by decide)).2.1
    "daemon:x:1".data "1".data [] (by decide) (by decide)

/-- C1: (a) a parsed line whose GID value matches a probed GID and whose
user list lacks `root` as a whole word is emitted as the original line with
`root` appended, preceded by a comma iff the list was non-empty; (b) for a
probed GID that no line of the file carries, the record
`gpu_<g>:x:<g>:root` is appended after all original lines; (c) the rename
onto `/etc/group` happens iff some line was modified or some record
appended. -/
theorem gpu_group_reconciliation (gpu_gids : List Nat)
    (lines : List (List Char)) (hnd : gpu_gids.Nodup) :
    (∀ (k : Nat) (hk : k < lines.length) (pre gidf users : List Char),
      parseGroupLine lines[k] = some (pre, gidf, users) →
      gidOfInt (atoi gidf) ∈ gpu_gids →
      hasUser users rootUser = false →
      (setup_gpu_groups gpu_gids lines).lines[k]? =
        some (lines[k] ++
          (if users.length > 0 then ',' :: rootUser else rootUser))) ∧
    (∀ g ∈ gpu_gids, (∀ l ∈ lines, lineHasGid g l = false) →
      ∃ j, lines.length ≤ j ∧
        (setup_gpu_groups gpu_gids lines).lines[j]? = some (gpuRecord g)) ∧
    ((setup_gpu_groups gpu_gids lines).renamed = true ↔
      (∃ l ∈ lines, ∃ pre gidf users,
        parseGroupLine l = some (pre, gidf, users) ∧
        gidOfInt (atoi gidf) ∈ gpu_gids ∧ hasUser users rootUser = false) ∨
      (∃ g ∈ gpu_gids, ∀ l ∈ lines, lineHasGid g l = false)) := by
  have hfoundlen := scanFound_length gpu_gids lines
  have hfound_false : ∀ (g : Nat) (i : Nat) (hi : i < gpu_gids.length),
      gpu_gids[i] = g → (∀ l ∈ lines, lineHasGid g l = false) →
      (scanFound gpu_gids lines)[i]? = some false := by
    intro g i hi hgi hnone
    have hany : lines.any (lineMarksB gpu_gids i) = false := by
      rw [Bool.eq_false_iff]
      intro hany
      rw [List.any_eq_true] at hany
      obtain ⟨l, hl, hm⟩ := hany
      obtain ⟨g2, hg2, hhas⟩ := lineMarksB_hasGid gpu_gids i l hm
      have hg2v : g2 = g := by
        rw [List.getElem?_eq_getElem hi, hgi] at hg2
        exact (Option.some.inj hg2).symm
      rw [hg2v, hnone l hl] at hhas
      exact absurd hhas (by simp)
    rw [scanFound_getElem? gpu_gids lines i hi, hany]
  have hmem_missing : ∀ (g : Nat) (i : Nat) (hi : i < gpu_gids.length),
      gpu_gids[i] = g → (∀ l ∈ lines, lineHasGid g l = false) →
      gpuRecord g ∈ missingRecords gpu_gids (scanFound gpu_gids lines) := by
    intro g i hi hgi hnone
    have hfl : i < (scanFound gpu_gids lines).length := by
      rw [hfoundlen]; exact hi
    have hfi : (scanFound gpu_gids lines)[i] = false := by
      have hq := hfound_false g i hi hgi hnone
      rw [List.getElem?_eq_getElem hfl] at hq
      injection hq
    exact missingRecords_mem gpu_gids (scanFound gpu_gids lines) g i hi
      hfl hgi hfi
  refine ⟨?_, ?_, ?_⟩
  · intro k hk pre gidf users hp hm hu
    rw [setup_lines_getElem? gpu_gids lines k hk,
      transformLine_rewrites gpu_gids _ pre gidf users hp hm hu,
      rewriteLine_append lines[k] pre gidf users hp]
  · intro g hg hnone
    obtain ⟨i, hi, hgi⟩ := List.mem_iff_getElem.mp hg
    have hmem := hmem_missing g i hi hgi hnone
    obtain ⟨jm, hjm, hjmv⟩ := List.mem_iff_getElem.mp hmem
    have hmod : scanModified gpu_gids lines > 0 := by
      unfold scanModified
      omega
    refine ⟨lines.length + jm, by omega, ?_⟩
    rw [setup_gpu_groups_eq, if_pos hmod]
    show (scanOut gpu_gids lines)[lines.length + jm]? = _
    unfold scanOut
    rw [List.getElem?_append_right (by simp)]
    simp only [List.length_map]
    have hsub : lines.length + jm - lines.length = jm := by omega
    rw [hsub, List.getElem?_eq_getElem hjm, hjmv]
  · rw [setup_gpu_groups_eq]
    by_cases hmod : scanModified gpu_gids lines > 0
    · rw [if_pos hmod]
      show true = true ↔ _
      refine ⟨fun _ => ?_, fun _ => rfl⟩
      unfold scanModified at hmod
      by_cases hcount : lines.countP (lineRewrittenB gpu_gids) > 0
      · left
        obtain ⟨l, hl, hB⟩ := List.countP_pos_iff.mp hcount
        exact ⟨l, hl, (lineRewrittenB_iff gpu_gids l).mp (by simpa using hB)⟩
      · right
        have hne : missingRecords gpu_gids (scanFound gpu_gids lines) ≠ [] := by
          intro hnil
          rw [hnil] at hmod
          simp only [List.length_nil] at hmod
          omega
        obtain ⟨i, hi, hif, hfalse⟩ :=
          missingRecords_ne_nil gpu_gids (scanFound gpu_gids lines) hne
        refine ⟨gpu_gids[i], List.getElem_mem hi, ?_⟩
        intro l hl
        rw [Bool.eq_false_iff]
        intro hhas
        have hmark := hasGid_lineMarksB gpu_gids hnd i hi l hhas
        have hany : lines.any (lineMarksB gpu_gids i) = true := by
          rw [List.any_eq_true]
          exact ⟨l, hl, hmark⟩
        have hsf := scanFound_getElem? gpu_gids lines i hi
        rw [hany, List.getElem?_eq_getElem hif] at hsf
        injection hsf with hvv
        rw [hfalse] at hvv
        exact absurd hvv (by simp)
    · rw [if_neg hmod]
      show false = true ↔ _
      refine ⟨fun hcontra => absurd hcontra (by simp), fun hdisj => ?_⟩
      exfalso
      rcases hdisj with ⟨l, hl, pre, gidf, users, hp, hm, hu⟩ | ⟨g, hg, hnone⟩
      · have hB : lineRewrittenB gpu_gids l = true :=
          (lineRewrittenB_iff gpu_gids l).mpr ⟨pre, gidf, users, hp, hm, hu⟩
        have : lines.countP (lineRewrittenB gpu_gids) > 0 :=
          List.countP_pos_iff.mpr ⟨l, hl, by simpa using hB⟩
        unfold scanModified at hmod
        omega
      · obtain ⟨i, hi, hgi⟩ := List.mem_iff_getElem.mp hg
        have hmem := hmem_missing g i hi hgi hnone
        have : (missingRecords gpu_gids (scanFound gpu_gids lines)).length > 0 := by
          cases hmr : missingRecords gpu_gids (scanFound gpu_gids lines) with
          | nil => rw [hmr] at hmem; exact absurd hmem (by simp)
          | cons a as => simp [hmr]
        unfold scanModified at hmod
        omega

/-- C1 witness: probing GIDs 240 and 44 against the single-line file
`video:x:44:` — the line gains `root` (no comma: empty list), the record
`gpu_240:x:240:root` is appended after the original line, and the rename
happens. -/
theorem gpu_group_reconciliation_witness :
    (setup_gpu_groups [240, 44] ["video:x:44:".data]).lines[0]? =
      some ("video:x:44:".data ++ rootUser) ∧
    (∃ j, 1 ≤ j ∧ (setup_gpu_groups [240, 44]
      ["video:x:44:".data]).lines[j]? = some (gpuRecord 240)) ∧
    (setup_gpu_groups [240, 44] ["video:x:44:".data]).renamed = true := by
  have h := gpu_group_reconciliation [240, 44] ["video:x:44:".data] (by decide)
  refine ⟨?_, ?_, ?_⟩
  · exact h.1 0 (by decide) "video:x:44".data "44".data [] (by decide)
      (by decide) (by decide)
  · exact h.2.1 240 (by decide) (by decide)
  · exact h.2.2.mpr (Or.inr ⟨240, by decide, by decide⟩)

/-- C3: `setup_gpu_groups` is idempotent — run a second time with the same
probed (distinct, `gid_t`-ranged) GIDs on the file the first run produced,
it rewrites no line, appends no record, reports `modified_count = 0` and
skips the rename, leaving the same file bytes. -/
theorem gpu_groups_idempotent (gpu_gids : List Nat)
    (lines : List (List Char)) (hnd : gpu_gids.Nodup)
    (hlt : ∀ g ∈ gpu_gids, g < 4294967296) :
    setup_gpu_groups gpu_gids (setup_gpu_groups gpu_gids lines).lines =
      { lines := (setup_gpu_groups gpu_gids lines).lines,
        modified := 0, renamed := false } := by
  by_cases hmod : scanModified gpu_gids lines > 0
  · have hL : (setup_gpu_groups gpu_gids lines).lines = scanOut gpu_gids lines := by
      rw [setup_gpu_groups_eq, if_pos hmod]
    rw [hL]
    have hK1 : (scanOut gpu_gids lines).countP (lineRewrittenB gpu_gids) = 0 := by
      rw [List.countP_eq_zero]
      intro l' hl'
      rcases List.mem_append.mp hl' with hmap | hmiss
      · obtain ⟨l, hl, rfl⟩ := List.mem_map.mp hmap
        simp [lineRewrittenB_transform]
      · unfold missingRecords at hmiss
        obtain ⟨a, ha, hfa⟩ := List.mem_filterMap.mp hmiss
        by_cases hb : a.2
        · rw [if_pos hb] at hfa
          exact absurd hfa (by simp)
        · rw [if_neg hb] at hfa
          injection hfa with hrec
          rw [← hrec]
          simp [lineRewrittenB_gpuRecord]
    have hlenL := scanFound_length gpu_gids (scanOut gpu_gids lines)
    have hK2 : missingRecords gpu_gids
        (scanFound gpu_gids (scanOut gpu_gids lines)) = [] := by
      apply missingRecords_nil gpu_gids _ hlenL
      intro i hif
      have hi : i < gpu_gids.length := by omega
      have hany : (scanOut gpu_gids lines).any (lineMarksB gpu_gids i) = true := by
        cases hany0 : lines.any (lineMarksB gpu_gids i) with
        | true =>
          obtain ⟨l, hl, hm⟩ := List.any_eq_true.mp hany0
          rw [List.any_eq_true]
          refine ⟨transformLine gpu_gids l, ?_, ?_⟩
          · exact List.mem_append_left _ (List.mem_map_of_mem _ hl)
          · rw [lineMarksB_transform]
            exact hm
        | false =>
          have hflin : i < (scanFound gpu_gids lines).length := by
            rw [scanFound_length]
            exact hi
          have hfi : (scanFound gpu_gids lines)[i] = false := by
            have hq := scanFound_getElem? gpu_gids lines i hi
            rw [hany0, List.getElem?_eq_getElem hflin] at hq
            injection hq
          have hmem := missingRecords_mem gpu_gids (scanFound gpu_gids lines)
            (gpu_gids[i]) i hi hflin rfl hfi
          rw [List.any_eq_true]
          refine ⟨gpuRecord gpu_gids[i], List.mem_append_right _ hmem, ?_⟩
          exact lineMarksB_gpuRecord gpu_gids hnd i hi
            (hlt _ (List.getElem_mem hi))
      have hq := scanFound_getElem? gpu_gids (scanOut gpu_gids lines) i hi
      rw [hany, List.getElem?_eq_getElem hif] at hq
      exact Option.some.inj hq
    have hmodL : ¬ scanModified gpu_gids (scanOut gpu_gids lines) > 0 := by
      unfold scanModified
      rw [hK1, hK2]
      simp
    rw [setup_gpu_groups_eq, if_neg hmodL]
  · have hL : (setup_gpu_groups gpu_gids lines).lines = lines := by
      rw [setup_gpu_groups_eq, if_neg hmod]
    rw [hL, setup_gpu_groups_eq, if_neg hmod]

/-- C3 witness: a second run on the file produced from `video:x:44:` with
probed GIDs 240 and 44 changes nothing and skips the rename. -/
theorem gpu_groups_idempotent_witness :
    setup_gpu_groups [240, 44]
        (setup_gpu_groups [240, 44] ["video:x:44:".data]).lines =
      { lines := (setup_gpu_groups [240, 44] ["video:x:44:".data]).lines,
        modified := 0, renamed := false } :=
  gpu_groups_idempotent [240, 44] ["video:x:44:".data] (by decide) (by decide)

end Droidspaces
